import Mathlib

/-!
# Verification of the jaeger-ui AI-assistant query subsystem

A shallow embedding of the natural-language trace-query subsystem of this
repository, translated from:

- `packages/jaeger-ui/src/utils/ai-assistant/query-parser.ts`
  (`parseNaturalLanguageQuery`, `convertParsedQueryToSearchFilters`)
- `packages/jaeger-ui/src/utils/ai-assistant/llm-client.ts`
  (`OpenAIClient.query`, `OllamaClient.query`, `queryLLM`)
- `packages/jaeger-ui/src/components/SearchTracePage/AIAssistantSearch.tsx`
  (`handleSearch`)

JavaScript runtime values that flow through the code (results of `JSON.parse`,
thrown values, fetch outcomes) are modelled explicitly; JSON numbers keep their
source lexeme so no floating point is involved.
-/

/-- A JavaScript value as produced by `JSON.parse`.  Numbers keep the source
lexeme (the code never does arithmetic on them).  `undefined` is modelled as
`Option.none` at use sites, since `JSON.parse` itself never yields it. -/
inductive Json where
  | null
  | bool (b : Bool)
  | num (lexeme : String)
  | str (s : String)
  | arr (elems : List Json)
  | obj (fields : List (String × Json))

/-- A value thrown by JavaScript code: either an `Error` instance (carrying its
`message`) or some non-`Error` value (carrying its `String(...)` rendering).
`fetch` rejections are `TypeError`s, hence `errObj`. -/
inductive JsThrown where
  | errObj (message : String)
  | rawValue (rendering : String)

/-- True when a JSON number lexeme denotes zero: the mantissa (sign and
exponent stripped) consists only of `0` and `.` characters. -/
def numLexemeIsZero (s : String) : Bool :=
  let t := if s.startsWith "-" then s.drop 1 else s
  let mantissa := t.takeWhile fun c => c ≠ 'e' && c ≠ 'E'
  mantissa.all fun c => c = '0' || c = '.'

/-- JavaScript truthiness of a parsed-JSON value: `null`, `false`, `0` and the
empty string are falsy; every object and array is truthy. -/
def Json.truthy : Json → Bool
  | .null => false
  | .bool b => b
  | .num s => !(numLexemeIsZero s)
  | .str s => s ≠ ""
  | .arr _ => true
  | .obj _ => true

mutual

/-- `String(v)` / template-literal rendering: arrays render as their
comma-joined elements (`null` elements rendering empty); objects render as
`[object Object]`.  Number lexemes are kept verbatim rather than
re-canonicalised. -/
def Json.jsString : Json → String
  | .null => "null"
  | .bool b => cond b "true" "false"
  | .num s => s
  | .str s => s
  | .arr xs => jsStringElems xs
  | .obj _ => "[object Object]"

/-- Comma-joined rendering of array elements, as `Array.prototype.toString`. -/
def jsStringElems : List Json → String
  | [] => ""
  | x :: xs =>
      (match x with
        | .null => ""
        | v => Json.jsString v) ++
      (match xs with
        | [] => ""
        | _ :: _ => "," ++ jsStringElems xs)

end

/-- The character `\x7b` (left curly brace). -/
def lbraceChar : Char := Char.ofNat 123

/-- The character `\x7d` (right curly brace). -/
def rbraceChar : Char := Char.ofNat 125

/-- The backtick character. -/
def backtickChar : Char := Char.ofNat 96

/-- Canonical decimal rendering of a `Nat` (used for array `length`). -/
def natStr (n : Nat) : String := toString n

/-- Decimal value of a digit list. -/
def digitsVal : List Char → Nat → Nat
  | [], acc => acc
  | c :: t, acc => digitsVal t (acc * 10 + (c.toNat - 48))

/-- The index a property key denotes, when the key is the canonical decimal
form of a natural number (single digits, or a nonzero leading digit followed
by digits) — the keys under which JavaScript exposes array and string
elements. -/
def canonicalIndex? (k : String) : Option Nat :=
  match k.toList with
  | [] => none
  | [c] => if c.isDigit then some (c.toNat - 48) else none
  | c :: t =>
      if c.isDigit && c ≠ '0' && t.all (fun d => d.isDigit) then
        some (digitsVal (c :: t) 0)
      else none

/-- Property access `v[k]` on a non-null, non-undefined JavaScript value:
object field lookup, array canonical index / `length`, string index /
`length`; properties of numbers and booleans are `undefined` (`none`). -/
def Json.getProp : Json → String → Option Json
  | .obj fs, k => fs.lookup k
  | .arr xs, k =>
      if k = "length" then some (.num (natStr xs.length))
      else
        match canonicalIndex? k with
        | some i => xs.get? i
        | none => none
  | .str s, k =>
      if k = "length" then some (.num (natStr s.length))
      else
        match canonicalIndex? k with
        | some i => (s.toList.get? i).map (fun c => Json.str (String.mk [c]))
        | none => none
  | .null, _ => none
  | .bool _, _ => none
  | .num _, _ => none

/-! ## A model of `JSON.parse`

A recursive-descent JSON parser over `List Char`, with explicit fuel (every
recursive call first consumes input, so `length + 16` fuel never runs out).
Error messages are the model's own; the source relies on the host engine's
`SyntaxError` messages, and no claim depends on their exact text. -/

/-- JSON whitespace. -/
def isJsonWs (c : Char) : Bool := c = ' ' || c = '\t' || c = '\n' || c = '\r'

/-- Drop leading JSON whitespace. -/
def skipWs : List Char → List Char
  | [] => []
  | c :: t => if isJsonWs c then skipWs t else c :: t

/-- Hexadecimal digit value, by code point (48-57 digits, 97-102 lower,
65-70 upper). -/
def hexDigitVal (c : Char) : Option Nat :=
  let n := c.toNat
  if 48 ≤ n ∧ n ≤ 57 then some (n - 48)
  else if 97 ≤ n ∧ n ≤ 102 then some (n - 87)
  else if 65 ≤ n ∧ n ≤ 70 then some (n - 55)
  else none

/-- Parse the body of a JSON string after the opening quote, handling the
escape sequences of the JSON grammar. -/
def parseStringBody : Nat → List Char → List Char → Except String (String × List Char)
  | 0, _, _ => .error "Unexpected end of JSON input"
  | _ + 1, _, [] => .error "Unterminated string in JSON"
  | f + 1, acc, c :: t =>
      if c = '"' then .ok (String.mk acc.reverse, t)
      else if c = '\\' then
        match t with
        | [] => .error "Unterminated string in JSON"
        | e :: t2 =>
            if e = '"' then parseStringBody f ('"' :: acc) t2
            else if e = '\\' then parseStringBody f ('\\' :: acc) t2
            else if e = '/' then parseStringBody f ('/' :: acc) t2
            else if e = 'b' then parseStringBody f (Char.ofNat 8 :: acc) t2
            else if e = 'f' then parseStringBody f (Char.ofNat 12 :: acc) t2
            else if e = 'n' then parseStringBody f ('\n' :: acc) t2
            else if e = 'r' then parseStringBody f ('\r' :: acc) t2
            else if e = 't' then parseStringBody f ('\t' :: acc) t2
            else if e = 'u' then
              match t2 with
              | h1 :: h2 :: h3 :: h4 :: t3 =>
                  match hexDigitVal h1, hexDigitVal h2, hexDigitVal h3, hexDigitVal h4 with
                  | some a, some b, some cdig, some d =>
                      parseStringBody f
                        (Char.ofNat (((a * 16 + b) * 16 + cdig) * 16 + d) :: acc) t3
                  | _, _, _, _ => .error "Bad Unicode escape in JSON"
              | _ => .error "Bad Unicode escape in JSON"
            else .error "Bad escaped character in JSON"
      else parseStringBody f (c :: acc) t

/-- Split off a run of decimal digits. -/
def takeDigits (cs : List Char) : List Char × List Char :=
  match cs with
  | [] => ([], [])
  | c :: t =>
      if c.isDigit then
        let (d, r) := takeDigits t
        (c :: d, r)
      else ([], cs)

/-- Parse a JSON number lexeme (`-? int frac? exp?`, leading zeros refused),
returning the lexeme and the rest. -/
def parseNumberLexeme (cs : List Char) : Except String (String × List Char) :=
  let (sign, r1) :=
    match cs with
    | c :: t => if c = '-' then ([c], t) else ([], cs)
    | [] => ([], cs)
  match r1 with
  | [] => .error "Unexpected end of JSON input"
  | c :: t =>
      if !c.isDigit then .error "Unexpected token in JSON"
      else
        let (intPart, r2) :=
          if c = '0' then ([c], t)
          else
            let (d, r) := takeDigits t
            (c :: d, r)
        let (fracPart, r3) :=
          match r2 with
          | p :: t2 =>
              if p = '.' then
                let (d, r) := takeDigits t2
                if d.isEmpty then ([], r2) else (p :: d, r)
              else ([], r2)
          | [] => ([], r2)
        if fracPart.isEmpty && (match r2 with | p :: _ => p = '.' | [] => false) then
          .error "Unterminated fractional number in JSON"
        else
          let (expPart, r4) :=
            match r3 with
            | e :: t2 =>
                if e = 'e' || e = 'E' then
                  let (sgn, t3) :=
                    match t2 with
                    | s :: t4 => if s = '+' || s = '-' then ([s], t4) else ([], t2)
                    | [] => ([], t2)
                  let (d, r) := takeDigits t3
                  if d.isEmpty then ([], r3) else (e :: (sgn ++ d), r)
                else ([], r3)
            | [] => ([], r3)
          if expPart.isEmpty && (match r3 with | e :: _ => e = 'e' || e = 'E' | [] => false) then
            .error "Exponent part is missing a number in JSON"
          else
            .ok (String.mk (sign ++ intPart ++ fracPart ++ expPart), r4)

/-- Insert a field into a JSON object under JavaScript semantics: a repeated
key keeps its first position but takes the last value. -/
def objInsert (fs : List (String × Json)) (k : String) (v : Json) : List (String × Json) :=
  if fs.any (fun p => p.1 == k) then
    fs.map fun p => if p.1 == k then (k, v) else p
  else fs ++ [(k, v)]

mutual

/-- Parse one JSON value (leading whitespace allowed). -/
def parseJsonValue : Nat → List Char → Except String (Json × List Char)
  | 0, _ => .error "Unexpected end of JSON input"
  | f + 1, cs =>
      match skipWs cs with
      | [] => .error "Unexpected end of JSON input"
      | c :: t =>
          if c = lbraceChar then parseJsonObject f t [] true
          else if c = '[' then parseJsonArray f t [] true
          else if c = '"' then
            match parseStringBody (f + 1) [] t with
            | .ok (s, r) => .ok (.str s, r)
            | .error e => .error e
          else if c = 't' then
            match t with
            | 'r' :: 'u' :: 'e' :: r => .ok (.bool true, r)
            | _ => .error "Unexpected token in JSON"
          else if c = 'f' then
            match t with
            | 'a' :: 'l' :: 's' :: 'e' :: r => .ok (.bool false, r)
            | _ => .error "Unexpected token in JSON"
          else if c = 'n' then
            match t with
            | 'u' :: 'l' :: 'l' :: r => .ok (.null, r)
            | _ => .error "Unexpected token in JSON"
          else if c = '-' || c.isDigit then
            match parseNumberLexeme (c :: t) with
            | .ok (s, r) => .ok (.num s, r)
            | .error e => .error e
          else .error "Unexpected token in JSON"

/-- Parse the fields of an object after its opening brace (`first` true) or
after a comma (`first` false, so a property name must follow). -/
def parseJsonObject : Nat → List Char → List (String × Json) → Bool →
    Except String (Json × List Char)
  | 0, _, _, _ => .error "Unexpected end of JSON input"
  | f + 1, cs, acc, first =>
      match skipWs cs with
      | [] => .error "Unexpected end of JSON input"
      | c :: t =>
          if first && c = rbraceChar then .ok (.obj [], t)
          else if c = '"' then
            match parseStringBody f [] t with
            | .error e => .error e
            | .ok (key, r1) =>
                match skipWs r1 with
                | ':' :: r2 =>
                    match parseJsonValue f r2 with
                    | .error e => .error e
                    | .ok (v, r3) =>
                        match skipWs r3 with
                        | ',' :: r4 => parseJsonObject f r4 (objInsert acc key v) false
                        | d :: r4 =>
                            if d = rbraceChar then .ok (.obj (objInsert acc key v), r4)
                            else .error "Expected comma or right brace in JSON object"
                        | [] => .error "Unexpected end of JSON input"
                | _ => .error "Expected colon in JSON object"
          else .error "Expected property name in JSON object"

/-- Parse the elements of an array after its opening bracket (`first` true) or
after a comma. -/
def parseJsonArray : Nat → List Char → List Json → Bool →
    Except String (Json × List Char)
  | 0, _, _, _ => .error "Unexpected end of JSON input"
  | f + 1, cs, acc, first =>
      match skipWs cs with
      | [] => .error "Unexpected end of JSON input"
      | c :: t =>
          if first && c = ']' then .ok (.arr [], t)
          else
            match parseJsonValue f (c :: t) with
            | .error e => .error e
            | .ok (v, r1) =>
                match skipWs r1 with
                | ',' :: r2 => parseJsonArray f r2 (acc ++ [v]) false
                | ']' :: r2 => .ok (.arr (acc ++ [v]), r2)
                | _ => .error "Expected comma or right bracket in JSON array"

end

/-- The model of `JSON.parse`: parse one value and require only whitespace to
follow. -/
def jsonParseJS (s : String) : Except String Json :=
  match parseJsonValue (s.length + 16) s.toList with
  | .error e => .error e
  | .ok (v, rest) =>
      if (skipWs rest).isEmpty then .ok v
      else .error "Unexpected non-whitespace character after JSON"

/-! ## String helpers shared by the embeddings -/

/-- Boolean list-prefix test. -/
def listStartsWith : List Char → List Char → Bool
  | [], _ => true
  | _ :: _, [] => false
  | a :: p, b :: s => a == b && listStartsWith p s

/-- Boolean contiguous-sublist test (JavaScript `String.prototype.includes`). -/
def listIsInfix (p : List Char) : List Char → Bool
  | [] => listStartsWith p []
  | c :: t => listStartsWith p (c :: t) || listIsInfix p t

/-- `s.includes(pat)`. -/
def jsIncludes (s pat : String) : Bool := listIsInfix pat.toList s.toList

/-! ## `query-parser.ts`: JSON extraction from the raw completion text

The source extracts with two regexes:
a fenced-block regex (backtick-backtick-backtick, `json`, an optional newline,
a lazy capture group, an optional newline, three closing backticks) and, when
that fails, a greedy brace-span regex (everything from the first left brace to
the last right brace).  Both are encoded below with explicit backtracking
order (lazy group: shortest interior first; greedy optional newline: consumed
first, retried unconsumed). -/

/-- Three backticks. -/
def fenceTicks : List Char := [backtickChar, backtickChar, backtickChar]

/-- The literal that opens a fenced json block: three backticks then `json`. -/
def fenceOpenLit : List Char := fenceTicks ++ ['j', 's', 'o', 'n']

/-- The lazy capture group of the fenced-block regex: the shortest interior
after which an optional newline and three closing backticks match (the
optional newline tried first at each stop, as the greedy `?` does). -/
def fenceClose : List Char → Option (List Char)
  | [] => none
  | c :: t =>
      if listStartsWith ('\n' :: fenceTicks) (c :: t) then some []
      else if listStartsWith fenceTicks (c :: t) then some []
      else (fenceClose t).map fun i => c :: i

/-- The fenced-block regex: at the leftmost occurrence of the opening literal
from which the whole pattern matches, the captured interior. -/
def fenceFind : List Char → Option (List Char)
  | [] => none
  | c :: t =>
      if listStartsWith fenceOpenLit (c :: t) then
        let rest := (c :: t).drop 7
        let attempt :=
          match rest with
          | '\n' :: r1 =>
              match fenceClose r1 with
              | some i => some i
              | none => fenceClose rest
          | _ => fenceClose rest
        match attempt with
        | some i => some i
        | none => fenceFind t
      else fenceFind t

/-- The longest prefix of the list that ends at its last right brace, when a
right brace occurs at all. -/
def upToLastRBrace : List Char → Option (List Char)
  | [] => none
  | c :: t =>
      match upToLastRBrace t with
      | some r => some (c :: r)
      | none => if c = rbraceChar then some [c] else none

/-- The greedy brace-span regex: from the first left brace to the last right
brace after it, when both exist. -/
def plainMatch : List Char → Option (List Char)
  | [] => none
  | c :: t =>
      if c = lbraceChar then
        match upToLastRBrace t with
        | some r => some (c :: r)
        | none => none
      else plainMatch t

/-- Lines 57-68 of `query-parser.ts`: the fenced interior when the fenced
regex matches, else the brace span when that regex matches, else the raw text
unchanged. -/
def extractJsonContent (content : String) : String :=
  match fenceFind content.toList with
  | some interior => String.mk interior
  | none =>
      match plainMatch content.toList with
      | some span => String.mk span
      | none => content

/-! ## `query-parser.ts`: normalization of the parsed payload -/

/-- `typeof parsed.key === 'string' ? parsed.key : undefined`. -/
def strFieldOfJson (parsed : Json) (key : String) : Option String :=
  match parsed.getProp key with
  | some (.str s) => some s
  | _ => none

/-- `x && x !== '' ? x : undefined`. -/
def nonEmptyOpt : Option String → Option String
  | some s => if s = "" then none else some s
  | none => none

/-- `typeof v === 'object'` (true for objects, arrays and `null`). -/
def jsTypeofObject : Json → Bool
  | .obj _ => true
  | .arr _ => true
  | .null => true
  | _ => false

/-- `Object.keys(v).length`. -/
def jsObjectKeysLength : Json → Nat
  | .obj fs => fs.length
  | .arr xs => xs.length
  | .str s => s.length
  | _ => 0

/-- The runtime shape of the object built at lines 83-91 of
`query-parser.ts`.  The source casts `parsed.tags` and `parsed.status` with
`as`, which performs no runtime check, so `tags` holds whatever non-empty
object the payload carried and `status` holds whatever truthy value the
payload carried (the declared TypeScript type notwithstanding). -/
structure ParsedQueryRT where
  natural_language_question : String
  service : Option String
  operation : Option String
  minDuration : Option String
  maxDuration : Option String
  tags : Option Json
  status : Json

/-- Lines 72-91 of `query-parser.ts`: field-by-field normalization of the
parsed payload (`parsed` is non-null here; the null case is handled by the
caller, where the first property access throws). -/
def normalizeParsed (question : String) (parsed : Json) : ParsedQueryRT :=
  let service := strFieldOfJson parsed "service"
  let operation := strFieldOfJson parsed "operation"
  let minDuration := strFieldOfJson parsed "minDuration"
  let maxDuration := strFieldOfJson parsed "maxDuration"
  let tags : Option Json :=
    match parsed.getProp "tags" with
    | some t => if t.truthy && jsTypeofObject t && decide (0 < jsObjectKeysLength t)
                then some t else none
    | none => none
  let status : Json :=
    match parsed.getProp "status" with
    | some v => if v.truthy then v else .str "all"
    | none => .str "all"
  { natural_language_question := question
    service := nonEmptyOpt service
    operation := nonEmptyOpt operation
    minDuration := nonEmptyOpt minDuration
    maxDuration := nonEmptyOpt maxDuration
    tags := tags
    status := status }

/-- The message prefix of the catch block at lines 94-98. -/
def parseFailWrap : String := "Failed to parse LLM response as JSON: "

/-- `parseNaturalLanguageQuery` of `query-parser.ts`, lines 46-99, from the
raw completion text on (the gateway call that produces the text is factored
out as the `content` argument; the claims quantify over that text).  A null
payload makes the first property access at line 73 throw a `TypeError`, which
the same catch block wraps. -/
def parseNaturalLanguageQuery (question : String) (content : String) :
    Except JsThrown ParsedQueryRT :=
  let jsonContent := extractJsonContent content
  match jsonParseJS jsonContent with
  | .error m => .error (.errObj (parseFailWrap ++ m))
  | .ok .null =>
      .error (.errObj (parseFailWrap ++
        "Cannot read properties of null (reading 'service')"))
  | .ok parsed => .ok (normalizeParsed question parsed)

/-! ## `query-parser.ts`: `convertParsedQueryToSearchFilters` -/

/-- The `IParsedQuery` interface as declared (lines 6-14 of
`query-parser.ts`): optional strings, an optional string-to-string tag
mapping, an optional status string. -/
structure IParsedQuery where
  service : Option String := none
  operation : Option String := none
  minDuration : Option String := none
  maxDuration : Option String := none
  tags : Option (List (String × String)) := none
  status : Option String := none
  natural_language_question : String := ""

/-- A `Record<string, string>`: assignment order preserved, keys unique. -/
abbrev FilterRecord := List (String × String)

/-- Property assignment `r[k] = v` on a record. -/
def recSet (r : FilterRecord) (k v : String) : FilterRecord :=
  if r.any (fun p => p.1 == k) then r.map fun p => if p.1 == k then (k, v) else p
  else r ++ [(k, v)]

/-- Property read `r[k]` on a record (`undefined` is `none`). -/
def recGet : FilterRecord → String → Option String
  | [], _ => none
  | p :: t, k => if p.1 = k then some p.2 else recGet t k

/-- The or-empty read `filters.tags || ...` : the stored value when present,
else the empty string. -/
def recGetOrEmpty (r : FilterRecord) (k : String) : String :=
  match recGet r k with
  | some s => s
  | none => ""

/-- `Array.prototype.join` with a single-space separator. -/
def joinSpace : List String → String
  | [] => ""
  | x :: xs =>
      x ++
      (match xs with
        | [] => ""
        | _ :: _ => " " ++ joinSpace xs)

/-- Lines 122-127: the tags mapping rendered as space-joined
`key="value"` pairs, in iteration order. -/
def renderTags (ts : List (String × String)) : String :=
  joinSpace (ts.map fun p => p.1 ++ "=\"" ++ p.2 ++ "\"")

/-- The fixed marker appended for `status === 'error'`. -/
def errorMarker : String := "otel.status_code=\"ERROR\""

/-- The fixed marker appended for `status === 'success'`. -/
def okMarker : String := "otel.status_code=\"OK\""

/-- One conditional copy-through statement of lines 105-119:
`if (parsed.f) \x7b filters.f = parsed.f; \x7d` (a truthy string copies, an
absent or empty one leaves the record unchanged). -/
def setIfTruthy (filters : FilterRecord) (k : String) (v : Option String) : FilterRecord :=
  match v with
  | some s => if s ≠ "" then recSet filters k s else filters
  | none => filters

/-- Lines 103-119: the four scalar fields copied through in order. -/
def scalarFilters (parsed : IParsedQuery) : FilterRecord :=
  setIfTruthy
    (setIfTruthy
      (setIfTruthy
        (setIfTruthy [] "service" parsed.service)
        "operation" parsed.operation)
      "minDuration" parsed.minDuration)
    "maxDuration" parsed.maxDuration

/-- Lines 121-128: the tags mapping rendered into the record when present and
non-empty. -/
def tagsFilters (parsed : IParsedQuery) (filters : FilterRecord) : FilterRecord :=
  match parsed.tags with
  | some ts => if 0 < ts.length then recSet filters "tags" (renderTags ts) else filters
  | none => filters

/-- Lines 130-137: the status markers appended to the tags string. -/
def statusFilters (status : Option String) (filters : FilterRecord) : FilterRecord :=
  if status = some "error" then
    let existingTags := recGetOrEmpty filters "tags"
    recSet filters "tags"
      (if existingTags ≠ "" then existingTags ++ " " ++ errorMarker else errorMarker)
  else if status = some "success" then
    let existingTags := recGetOrEmpty filters "tags"
    recSet filters "tags"
      (if existingTags ≠ "" then existingTags ++ " " ++ okMarker else okMarker)
  else filters

/-- `convertParsedQueryToSearchFilters` of `query-parser.ts`, lines 102-140:
the statements of the function body applied to the record in source order. -/
def convertParsedQueryToSearchFilters (parsed : IParsedQuery) : FilterRecord :=
  statusFilters parsed.status (tagsFilters parsed (scalarFilters parsed))

/-! ## `llm-client.ts`: the backend adapters and the gateway

A single network call happens per adapter invocation; its outcome is supplied
as an oracle value.  `fetch` rejections carry the thrown JavaScript value (a
`TypeError`, hence an `Error` instance, for real connection faults). -/

/-- The outcome of the one `fetch` an adapter performs: a success response
with its body text, a non-success response with its status text and body
text, or a rejection with the thrown value. -/
inductive FetchOutcome where
  | ok (bodyText : String)
  | httpError (statusText : String) (bodyText : String)
  | networkThrow (thrown : JsThrown)

/-- The `OpenAIClient` state (lines 158-166 of `llm-client.ts`). -/
structure OpenAIClient where
  apiKey : String
  model : String := "gpt-3.5-turbo"

/-- Line 194 of `llm-client.ts`: the optional-chain read
`data.choices[0]?.message?.content` followed by the or-empty default.  There
is no optional access between `choices` and the index, so an absent or null
`choices` makes the indexing throw a `TypeError`; from the index on the chain
short-circuits to `undefined` on absent or null links.  A truthy non-string
content is rendered with the string coercion (the declared return type is
`string`; this corner is not reachable from any claim). -/
def openaiExtractContent (data : Json) : Except JsThrown String :=
  match data with
  | .null => .error (.errObj "Cannot read properties of null (reading 'choices')")
  | d =>
      match d.getProp "choices" with
      | none => .error (.errObj "Cannot read properties of undefined (reading '0')")
      | some .null => .error (.errObj "Cannot read properties of null (reading '0')")
      | some cv =>
          let contentVal : Option Json :=
            match cv.getProp "0" with
            | none => none
            | some .null => none
            | some fv =>
                match fv.getProp "message" with
                | none => none
                | some .null => none
                | some mv => mv.getProp "content"
          match contentVal with
          | some v => .ok (if v.truthy then v.jsString else "")
          | none => .ok ""

/-- `OpenAIClient.query` (lines 168-195 of `llm-client.ts`): no try/catch, so
a `fetch` rejection and a `response.json()` failure propagate; a non-success
status throws the protocol error built from the upstream message field when
truthy, else the status text; on success the first completion choice content
or the empty string. -/
def OpenAIClient.query (_c : OpenAIClient) (outcome : FetchOutcome) :
    Except JsThrown String :=
  match outcome with
  | .networkThrow t => .error t
  | .httpError statusText bodyText =>
      match jsonParseJS bodyText with
      | .error m => .error (.errObj m)
      | .ok .null => .error (.errObj "Cannot read properties of null (reading 'error')")
      | .ok ej =>
          let msgVal : Option Json :=
            match ej.getProp "error" with
            | none => none
            | some .null => none
            | some ev => ev.getProp "message"
          let msg : String :=
            match msgVal with
            | some v => if v.truthy then v.jsString else statusText
            | none => statusText
          .error (.errObj ("OpenAI API error: " ++ msg))
  | .ok bodyText =>
      match jsonParseJS bodyText with
      | .error m => .error (.errObj m)
      | .ok data => openaiExtractContent data

/-- The `OllamaClient` state and its constructor defaults (lines 199-210 of
`llm-client.ts`). -/
structure OllamaClient where
  baseURL : String := "http://localhost:11434"
  model : String := "llama2"

/-- The try block of `OllamaClient.query` (lines 213-242): a non-success
status throws the Ollama protocol error, its message taken from a parseable
body error field (falling back to the status text, also when the body parses
to null, where the field access throws into the inner catch); a success
response yields `data.response` or the empty string, with a null body making
the field access throw. -/
def ollamaTryBody (outcome : FetchOutcome) : Except JsThrown String :=
  match outcome with
  | .networkThrow t => .error t
  | .httpError statusText bodyText =>
      let errorMsg : String :=
        match jsonParseJS bodyText with
        | .error _ => statusText
        | .ok .null => statusText
        | .ok errorData =>
            match errorData.getProp "error" with
            | some v => if v.truthy then v.jsString else statusText
            | none => statusText
      .error (.errObj ("Ollama API error: " ++ errorMsg))
  | .ok bodyText =>
      match jsonParseJS bodyText with
      | .error m => .error (.errObj m)
      | .ok .null => .error (.errObj "Cannot read properties of null (reading 'response')")
      | .ok data =>
          .ok (match data.getProp "response" with
               | some v => if v.truthy then v.jsString else ""
               | none => "")

/-- `OllamaClient.query` (lines 212-257 of `llm-client.ts`): the catch block
applies to everything thrown inside the try block, including the protocol
error the block itself throws.  An `Error` whose message contains both
`model` and `not found` is replaced by the model-not-installed error naming
the model; any other `Error` — including the `TypeError` a failed `fetch`
rejects with — is rethrown unchanged; only a thrown non-`Error` value reaches
the unable-to-connect message. -/
def OllamaClient.query (c : OllamaClient) (outcome : FetchOutcome) :
    Except JsThrown String :=
  match ollamaTryBody outcome with
  | .ok s => .ok s
  | .error err =>
      match err with
      | .errObj msg =>
          if jsIncludes msg "model" ∧ jsIncludes msg "not found" then
            .error (.errObj ("Ollama model '" ++ c.model ++
              "' not found. Install it with: ollama pull " ++ c.model))
          else .error (.errObj msg)
      | .rawValue _ =>
          .error (.errObj ("Unable to connect to Ollama at " ++ c.baseURL ++
            ". Make sure Ollama is running on the correct port."))

/-- The `ILLMClientConfig` interface (lines 151-155 of `llm-client.ts`). -/
structure ILLMClientConfig where
  model : String
  apiKey : Option String := none
  baseURL : Option String := none

/-- The `ILLMResponse` interface (lines 146-149 of `llm-client.ts`). -/
structure ILLMResponse where
  content : String
  model : String

/-- JavaScript truthiness of an optional string (`undefined` and the empty
string are falsy). -/
def jsOptStrTruthy : Option String → Bool
  | some s => s ≠ ""
  | none => false

/-- The adapter network call as the gateway observes it: the fetch outcome
together with the elapsed time of the call, in abstract time-units.  The
elapsed time is part of the oracle only so that deadline claims can be
stated; nothing in `queryLLM` reads it. -/
structure TimedCall where
  duration : Nat
  outcome : FetchOutcome

/-- What one `queryLLM` invocation did: its result, and whether an adapter
network call was attempted at all. -/
structure GatewayRun where
  result : Except JsThrown ILLMResponse
  adapterCalled : Bool

/-- The Ollama constructor argument: `new OllamaClient(config.baseURL)` keeps
the default URL when the argument is absent or falsy. -/
def ollamaBaseURLOf (baseURL : Option String) : String :=
  match baseURL with
  | some s => if s ≠ "" then s else "http://localhost:11434"
  | none => "http://localhost:11434"

/-- `queryLLM` (lines 260-281 of `llm-client.ts`): hosted variants require a
truthy `apiKey` before any adapter is constructed; the adapter is selected by
`config.model`; an unrecognized model throws.  The successful content is
bound to the requested model identity. -/
def queryLLM (config : ILLMClientConfig) (call : TimedCall) : GatewayRun :=
  if config.model = "openai-gpt4" ∨ config.model = "openai-gpt3.5" then
    if ¬ jsOptStrTruthy config.apiKey then
      { result := .error (.errObj "OpenAI API key is required"), adapterCalled := false }
    else
      let openaiModel := if config.model = "openai-gpt4" then "gpt-4" else "gpt-3.5-turbo"
      let client : OpenAIClient :=
        { apiKey := (match config.apiKey with | some s => s | none => ""),
          model := openaiModel }
      { result := (client.query call.outcome).map
          (fun content => { content := content, model := config.model }),
        adapterCalled := true }
  else if config.model = "ollama-free" then
    let client : OllamaClient := { baseURL := ollamaBaseURLOf config.baseURL }
    { result := (client.query call.outcome).map
        (fun content => { content := content, model := config.model }),
      adapterCalled := true }
  else
    { result := .error (.errObj ("Unknown model: " ++ config.model)), adapterCalled := false }

/-! ## `AIAssistantSearch.tsx`: the orchestrator `handleSearch`

Only the core pipeline is modelled: the question guard, the hosted-credential
guard, the parse call (whose outcome is supplied as an oracle value), and the
history update.  Filter compilation and search-query construction (lines
83-108) are total and throw nothing, so the only failure sources before the
history update are the guards and the parse; UI state is out of scope. -/

/-- One entry of the stored query history. -/
structure HistoryEntry where
  question : String
  timestamp : Nat

/-- What one `handleSearch` invocation did to the orchestrator state: the new
history list, and whether the search was executed. -/
structure SearchRun where
  history : List HistoryEntry
  searchExecuted : Bool

/-- `handleSearch` (lines 54-124 of `AIAssistantSearch.tsx`), from the state
it reads: an untrimmed-empty question returns early; a hosted model with an
empty stored key returns early; a parse failure is caught with no history
change; on success the new entry is prepended to the first nine old entries
(`slice(0, 9)`) and the search runs. -/
def handleSearch (question : String) (selectedModel : String) (apiKey : String)
    (parseResult : Except JsThrown ParsedQueryRT) (now : Nat)
    (queryHistory : List HistoryEntry) : SearchRun :=
  if question.trim = "" then { history := queryHistory, searchExecuted := false }
  else if (selectedModel = "openai-gpt4" ∨ selectedModel = "openai-gpt3.5") ∧ apiKey = "" then
    { history := queryHistory, searchExecuted := false }
  else
    match parseResult with
    | .error _ => { history := queryHistory, searchExecuted := false }
    | .ok _ =>
        { history := { question := question, timestamp := now } :: queryHistory.take 9,
          searchExecuted := true }

/-! ## Derived notions used by the statements -/

/-- The tags string the compiler renders before the status step: the rendered
mapping when present and non-empty, absent otherwise. -/
def tagsRendered (parsed : IParsedQuery) : Option String :=
  match parsed.tags with
  | some ts => if 0 < ts.length then some (renderTags ts) else none
  | none => none

/-- The five filter names `convertParsedQueryToSearchFilters` can emit. -/
def allowedFilterKeys : List String :=
  ["service", "operation", "minDuration", "maxDuration", "tags"]

/-- Every entry of the record has an allowed key and a non-empty value. -/
def filterRecordOK (r : FilterRecord) : Prop :=
  ∀ p ∈ r, p.1 ∈ allowedFilterKeys ∧ p.2 ≠ ""

/-! ## Record lemmas -/

/-- Replacing the value under `k` leaves reads of other keys unchanged. -/
theorem recGet_map_replace (t : FilterRecord) (k v k2 : String) (h : k ≠ k2) :
    recGet (t.map fun p => if p.1 == k then (k, v) else p) k2 = recGet t k2 := by
  induction t with
  | nil => simp
  | cons p t ih =>
      simp only [List.map_cons]
      by_cases hp : p.1 = k
      · simp only [recGet, (by simpa using hp : (p.1 == k) = true), if_true]
        rw [if_neg h, if_neg (fun hh => h (hp ▸ hh)), ih]
      · simp only [recGet, (by simpa using hp : (p.1 == k) = false), Bool.false_eq_true,
          if_false, ih]

/-- Appending a binding for `k` leaves reads of other keys unchanged. -/
theorem recGet_append_single (t : FilterRecord) (k v k2 : String) (h : k ≠ k2) :
    recGet (t ++ [(k, v)]) k2 = recGet t k2 := by
  induction t with
  | nil => simp [recGet, h]
  | cons p t ih => simp only [List.cons_append, recGet, List.append_eq, ih]

/-- `recSet` changes no key but its own. -/
theorem recGet_recSet_other (r : FilterRecord) (k v k2 : String) (h : k ≠ k2) :
    recGet (recSet r k v) k2 = recGet r k2 := by
  unfold recSet
  split
  · exact recGet_map_replace r k v k2 h
  · exact recGet_append_single r k v k2 h

/-- Replacing the value under an occurring key makes reads of it see the new
value. -/
theorem recGet_map_replace_same (t : FilterRecord) (k v : String)
    (h : (t.any fun p => p.1 == k) = true) :
    recGet (t.map fun p => if p.1 == k then (k, v) else p) k = some v := by
  induction t with
  | nil => simp at h
  | cons p t ih =>
      simp only [List.map_cons]
      by_cases hp : p.1 = k
      · simp [recGet, (by simpa using hp : (p.1 == k) = true)]
      · simp only [List.any_cons, Bool.or_eq_true, beq_iff_eq] at h
        rcases h with h | h
        · exact absurd h hp
        · simp only [recGet, (by simpa using hp : (p.1 == k) = false), Bool.false_eq_true,
            if_false, hp]
          exact ih h

/-- Reading the key just assigned sees the assigned value. -/
theorem recGet_recSet_same (r : FilterRecord) (k v : String) :
    recGet (recSet r k v) k = some v := by
  unfold recSet
  split
  · exact recGet_map_replace_same r k v (by assumption)
  · induction r with
    | nil => simp [recGet]
    | cons p t ih =>
        rename_i h
        simp only [List.any_cons, Bool.or_eq_true, beq_iff_eq, not_or] at h
        simp only [List.cons_append, recGet, List.append_eq, if_neg h.1]
        exact ih (by simpa using h.2)

/-- A conditional copy-through of another key does not touch reads of `k2`. -/
theorem recGet_setIfTruthy_other (r : FilterRecord) (k : String) (v : Option String)
    (k2 : String) (h : k ≠ k2) : recGet (setIfTruthy r k v) k2 = recGet r k2 := by
  cases v with
  | none => rfl
  | some s =>
      simp only [setIfTruthy]
      split
      · exact recGet_recSet_other r k s k2 h
      · rfl

/-- The scalar copy-through stage never writes the tags key. -/
theorem recGet_scalarFilters_tags (parsed : IParsedQuery) :
    recGet (scalarFilters parsed) "tags" = none := by
  unfold scalarFilters
  rw [recGet_setIfTruthy_other _ _ _ _ (by decide),
      recGet_setIfTruthy_other _ _ _ _ (by decide),
      recGet_setIfTruthy_other _ _ _ _ (by decide),
      recGet_setIfTruthy_other _ _ _ _ (by decide)]
  rfl

/-- After the tags stage, the tags key holds exactly the rendered mapping. -/
theorem recGet_tagsFilters_tags (parsed : IParsedQuery) :
    recGet (tagsFilters parsed (scalarFilters parsed)) "tags" = tagsRendered parsed := by
  rcases hts : parsed.tags with _ | ts
  · simp only [tagsFilters, tagsRendered, hts]
    exact recGet_scalarFilters_tags parsed
  · simp only [tagsFilters, tagsRendered, hts]
    split
    · exact recGet_recSet_same _ _ _
    · exact recGet_scalarFilters_tags parsed

/-- A string with a non-empty right part is non-empty. -/
theorem string_append_ne_empty (a b : String) (hb : b ≠ "") : a ++ b ≠ "" := by
  intro h
  apply hb
  have h2 := congrArg String.length h
  rw [String.length_append] at h2
  have l3 : ("" : String).length = 0 := rfl
  rw [l3] at h2
  have hb0 : b.length = 0 := by omega
  cases b with
  | mk data =>
      cases data with
      | nil => rfl
      | cons c cs => simp [String.length] at hb0

/-- A non-empty tag mapping renders to a non-empty string (every pair carries
at least the equals sign and two quotes). -/
theorem renderTags_ne_empty (p : String × String) (rest : List (String × String)) :
    renderTags (p :: rest) ≠ "" := by
  intro h
  have h2 := congrArg String.length h
  simp only [renderTags, List.map_cons, joinSpace, String.length_append] at h2
  have l1 : ("=\"" : String).length = 2 := rfl
  have l2 : ("\"" : String).length = 1 := rfl
  have l3 : ("" : String).length = 0 := rfl
  rw [l1, l2, l3] at h2
  omega

/-- Whatever the tags stage stores under the tags key is non-empty. -/
theorem tagsRendered_ne_empty (parsed : IParsedQuery) (t : String)
    (h : tagsRendered parsed = some t) : t ≠ "" := by
  unfold tagsRendered at h
  cases hts : parsed.tags with
  | none => rw [hts] at h; exact absurd h (by simp)
  | some ts =>
      rw [hts] at h
      cases ts with
      | nil => simp at h
      | cons p rest =>
          have ht : renderTags (p :: rest) = t := by simpa using h
          subst ht
          exact renderTags_ne_empty p rest

/-! ## The claims -/

/-- C4: for every parsed query, `convertParsedQueryToSearchFilters` appends
the marker `otel.status_code="ERROR"` to the tags string when status is
`error` and `otel.status_code="OK"` when status is `success`, joined to any
existing rendered tags by a single space with the marker last and with no
leading space when there are no existing tags, and appends nothing when
status is `all`; in particular tags `a ↦ b` with status `error` yield the
tags string `a="b" otel.status_code="ERROR"`, and no tags with status
`success` yields exactly `otel.status_code="OK"`. -/
theorem convert_status_marker_appending (parsed : IParsedQuery) :
    (parsed.status = some "error" →
      recGet (convertParsedQueryToSearchFilters parsed) "tags" =
        some (match tagsRendered parsed with
              | some t => t ++ " " ++ errorMarker
              | none => errorMarker)) ∧
    (parsed.status = some "success" →
      recGet (convertParsedQueryToSearchFilters parsed) "tags" =
        some (match tagsRendered parsed with
              | some t => t ++ " " ++ okMarker
              | none => okMarker)) ∧
    (parsed.status = some "all" →
      recGet (convertParsedQueryToSearchFilters parsed) "tags" = tagsRendered parsed) ∧
    recGet (convertParsedQueryToSearchFilters
      { tags := some [("a", "b")], status := some "error" }) "tags" =
        some "a=\"b\" otel.status_code=\"ERROR\"" ∧
    convertParsedQueryToSearchFilters { status := some "success" } =
      [("tags", "otel.status_code=\"OK\"")] := by
  refine ⟨?_, ?_, ?_, by decide, by decide⟩
  · intro h
    unfold convertParsedQueryToSearchFilters statusFilters
    rw [if_pos h, recGet_recSet_same]
    unfold recGetOrEmpty
    rw [recGet_tagsFilters_tags]
    cases htr : tagsRendered parsed with
    | none => simp
    | some t =>
        have hne := tagsRendered_ne_empty parsed t htr
        simp [hne]
  · intro h
    unfold convertParsedQueryToSearchFilters statusFilters
    rw [if_neg (by rw [h]; decide), if_pos h, recGet_recSet_same]
    unfold recGetOrEmpty
    rw [recGet_tagsFilters_tags]
    cases htr : tagsRendered parsed with
    | none => simp
    | some t =>
        have hne := tagsRendered_ne_empty parsed t htr
        simp [hne]
  · intro h
    unfold convertParsedQueryToSearchFilters statusFilters
    rw [if_neg (by rw [h]; decide), if_neg (by rw [h]; decide)]
    exact recGet_tagsFilters_tags parsed

/-- Membership in the record after an assignment comes from the assignment or
from the old record. -/
theorem mem_recSet (r : FilterRecord) (k v : String) (p : String × String)
    (hp : p ∈ recSet r k v) : p = (k, v) ∨ p ∈ r := by
  unfold recSet at hp
  split at hp
  · obtain ⟨q, hq, hqe⟩ := List.mem_map.1 hp
    by_cases hqk : q.1 = k
    · left
      rw [if_pos (by simpa using hqk)] at hqe
      exact hqe.symm
    · right
      rw [if_neg (by simpa using hqk)] at hqe
      exact hqe ▸ hq
  · rcases List.mem_append.1 hp with h | h
    · exact Or.inr h
    · exact Or.inl (by simpa using h)

/-- An assignment with an allowed key and non-empty value preserves the
record invariant. -/
theorem filterRecordOK_recSet (r : FilterRecord) (k v : String)
    (hr : filterRecordOK r) (hk : k ∈ allowedFilterKeys) (hv : v ≠ "") :
    filterRecordOK (recSet r k v) := by
  intro p hp
  rcases mem_recSet r k v p hp with rfl | hp
  · exact ⟨hk, hv⟩
  · exact hr p hp

/-- A conditional copy-through preserves the record invariant: it only ever
assigns a non-empty string. -/
theorem filterRecordOK_setIfTruthy (r : FilterRecord) (k : String) (v : Option String)
    (hr : filterRecordOK r) (hk : k ∈ allowedFilterKeys) :
    filterRecordOK (setIfTruthy r k v) := by
  cases v with
  | none => exact hr
  | some s =>
      simp only [setIfTruthy]
      split
      · exact filterRecordOK_recSet r k s hr hk (by assumption)
      · exact hr

/-- The scalar stage maintains the record invariant from the empty record. -/
theorem filterRecordOK_scalarFilters (parsed : IParsedQuery) :
    filterRecordOK (scalarFilters parsed) := by
  unfold scalarFilters
  refine filterRecordOK_setIfTruthy _ _ _
    (filterRecordOK_setIfTruthy _ _ _
      (filterRecordOK_setIfTruthy _ _ _
        (filterRecordOK_setIfTruthy _ _ _ (fun p hp => absurd hp (List.not_mem_nil p))
          (by decide)) (by decide)) (by decide)) (by decide)

/-- The tags stage preserves the record invariant: an empty mapping writes
nothing and a non-empty one renders to a non-empty string. -/
theorem filterRecordOK_tagsFilters (parsed : IParsedQuery) (r : FilterRecord)
    (hr : filterRecordOK r) : filterRecordOK (tagsFilters parsed r) := by
  rcases hts : parsed.tags with _ | ts
  · simpa only [tagsFilters, hts] using hr
  · simp only [tagsFilters, hts]
    split
    · rename_i hlen
      cases ts with
      | nil => simp at hlen
      | cons p rest =>
          exact filterRecordOK_recSet r "tags" _ hr (by decide) (renderTags_ne_empty p rest)
    · exact hr

/-- The status stage preserves the record invariant: both markers are
non-empty and appending after existing tags keeps the value non-empty. -/
theorem filterRecordOK_statusFilters (status : Option String) (r : FilterRecord)
    (hr : filterRecordOK r) : filterRecordOK (statusFilters status r) := by
  unfold statusFilters
  split
  · refine filterRecordOK_recSet r "tags" _ hr (by decide) ?_
    split
    · exact string_append_ne_empty _ _ (by decide)
    · decide
  · split
    · refine filterRecordOK_recSet r "tags" _ hr (by decide) ?_
      split
      · exact string_append_ne_empty _ _ (by decide)
      · decide
    · exact hr

/-- C10: for every input query, including un-normalized ones, the filter set
returned by `convertParsedQueryToSearchFilters` has keys drawn only from
service, operation, minDuration, maxDuration and tags, and every value is a
non-empty string: present-but-empty fields and empty tag mappings are omitted
rather than copied. -/
theorem convert_output_keys_and_values (parsed : IParsedQuery) (k v : String)
    (h : (k, v) ∈ convertParsedQueryToSearchFilters parsed) :
    k ∈ allowedFilterKeys ∧ v ≠ "" :=
  filterRecordOK_statusFilters parsed.status _
    (filterRecordOK_tagsFilters parsed _ (filterRecordOK_scalarFilters parsed)) (k, v) h

/-- C10 witness: the theorem applied to a concrete query and entry. -/
theorem convert_output_keys_and_values_witness :
    "service" ∈ allowedFilterKeys ∧ "user" ≠ "" :=
  convert_output_keys_and_values { service := some "user" } "service" "user" (by decide)

/-- C1 (amended): `queryLLM` wraps the adapter call with no deadline at all:
its result and adapter-invocation flag are determined by the configuration
and the adapter outcome alone, identically for every elapsed duration of the
network call, and no timeout error is ever produced. -/
theorem queryLLM_result_ignores_duration (config : ILLMClientConfig)
    (outcome : FetchOutcome) (d d2 : Nat) :
    queryLLM config { duration := d, outcome := outcome } =
      queryLLM config { duration := d2, outcome := outcome } := rfl

/-- C1 counterexample: an adapter call taking 11 time-units — beyond the
claimed default 10-unit deadline — still returns an ordinary success, not a
timeout failure. -/
theorem queryLLM_late_response_still_succeeds :
    10 < 11 ∧
    queryLLM { model := "ollama-free" }
        { duration := 11, outcome := .ok "\x7b\"response\":\"hi\"\x7d" } =
      { result := .ok { content := "hi", model := "ollama-free" }, adapterCalled := true } :=
  ⟨by decide, rfl⟩

/-- C5: for every hosted-variant config with a missing key, `queryLLM` fails
with the configuration error before any adapter call (the adapter-invocation
flag is false), and for every config whose model is outside the closed set of
identities it fails with the configuration error naming the unknown model,
again with no adapter call. -/
theorem queryLLM_config_validation (config : ILLMClientConfig) (call : TimedCall) :
    ((config.model = "openai-gpt4" ∨ config.model = "openai-gpt3.5") →
      config.apiKey = none →
      queryLLM config call =
        { result := .error (.errObj "OpenAI API key is required"), adapterCalled := false }) ∧
    (config.model ≠ "openai-gpt4" → config.model ≠ "openai-gpt3.5" →
      config.model ≠ "ollama-free" →
      queryLLM config call =
        { result := .error (.errObj ("Unknown model: " ++ config.model)),
          adapterCalled := false }) := by
  constructor
  · intro h hk
    unfold queryLLM
    rw [if_pos h, hk]
    simp [jsOptStrTruthy]
  · intro h1 h2 h3
    unfold queryLLM
    rw [if_neg (by tauto), if_neg h3]

/-- C5 witness: the theorem applied to a keyless gpt-4 config. -/
theorem queryLLM_config_validation_witness :
    queryLLM { model := "openai-gpt4" } { duration := 0, outcome := .ok "" } =
      { result := .error (.errObj "OpenAI API key is required"), adapterCalled := false } :=
  (queryLLM_config_validation { model := "openai-gpt4" }
    { duration := 0, outcome := .ok "" }).1 (Or.inl rfl) rfl

/-- C9: `handleSearch` leaves the history unchanged on every non-executed
path — in particular on every parse failure, which covers gateway and
extraction errors (compilation is total) — and on success prepends exactly
one entry made of the question and the current time to the first nine old
entries, so a history of at most ten entries stays at most ten. -/
theorem handleSearch_history_update (question selectedModel apiKey : String)
    (parseResult : Except JsThrown ParsedQueryRT) (now : Nat)
    (queryHistory : List HistoryEntry) :
    ((handleSearch question selectedModel apiKey parseResult now queryHistory).searchExecuted
        = false →
      (handleSearch question selectedModel apiKey parseResult now queryHistory).history
        = queryHistory) ∧
    (∀ e, parseResult = .error e →
      (handleSearch question selectedModel apiKey parseResult now queryHistory).history
        = queryHistory) ∧
    ((handleSearch question selectedModel apiKey parseResult now queryHistory).searchExecuted
        = true →
      (handleSearch question selectedModel apiKey parseResult now queryHistory).history
        = { question := question, timestamp := now } :: queryHistory.take 9) ∧
    (queryHistory.length ≤ 10 →
      (handleSearch question selectedModel apiKey parseResult now queryHistory).history.length
        ≤ 10) := by
  unfold handleSearch
  split
  · exact ⟨fun _ => rfl, fun _ _ => rfl, fun h => absurd h (by simp), fun h => h⟩
  · split
    · exact ⟨fun _ => rfl, fun _ _ => rfl, fun h => absurd h (by simp), fun h => h⟩
    · cases parseResult with
      | error e => exact ⟨fun _ => rfl, fun _ _ => rfl, fun h => absurd h (by simp), fun h => h⟩
      | ok r =>
          refine ⟨fun h => absurd h (by simp), fun e he => absurd he (by simp),
            fun _ => rfl, fun h => ?_⟩
          simp only [List.length_cons, List.length_take]
          omega

/-- C2: the status normalization is an unchecked cast followed by an or-else,
so a truthy unrecognized status value is kept verbatim instead of defaulting
to `all`: the payload with status `bogus` produces a parsed query whose
status is the string `bogus`, which differs from `all`. -/
theorem parse_unrecognized_status_kept_verbatim :
    parseNaturalLanguageQuery "q" "\x7b\"status\":\"bogus\"\x7d" =
      .ok { natural_language_question := "q", service := none, operation := none,
            minDuration := none, maxDuration := none, tags := none,
            status := .str "bogus" } ∧
    Json.str "bogus" ≠ Json.str "all" := by
  refine ⟨rfl, fun h => ?_⟩
  injection h with h2
  exact absurd h2 (by decide)

/-- C6: the local adapter maps a protocol error whose upstream message
matches the model-absent pattern to the model-not-installed error naming the
model; but a connection fault — `fetch` rejecting with a `TypeError`, an
`Error` instance — is rethrown verbatim, never replaced by the
unable-to-connect message naming the endpoint. -/
theorem ollama_error_classification_eval :
    OllamaClient.query {} (.httpError "Not Found"
        "\x7b\"error\":\"model 'llama2' not found, try pulling it first\"\x7d") =
      .error (.errObj
        "Ollama model 'llama2' not found. Install it with: ollama pull llama2") ∧
    OllamaClient.query {} (.httpError "Internal Server Error" "nope") =
      .error (.errObj "Ollama API error: Internal Server Error") ∧
    OllamaClient.query {} (.networkThrow (.errObj "fetch failed")) =
      .error (.errObj "fetch failed") ∧
    jsIncludes "fetch failed" "Unable to connect" = false :=
  ⟨rfl, rfl, rfl, rfl⟩

/-- C8: the tags normalization is an unchecked cast, so a non-empty object
with non-string values is kept verbatim in the parsed query, which therefore
need not be a key-to-string mapping (the scalar fields and the original
question behave as claimed). -/
theorem parse_tags_nonstring_values_kept :
    parseNaturalLanguageQuery "q" "\x7b\"tags\":\x7b\"a\":5\x7d\x7d" =
      .ok { natural_language_question := "q", service := none, operation := none,
            minDuration := none, maxDuration := none,
            tags := some (.obj [("a", .num "5")]), status := .str "all" } := rfl

/-- C7 counterexample: a successful hosted-adapter response with no
`choices` field at all contains no completion choice, yet the adapter throws
(the indexing of the absent field is not behind an optional access) instead
of returning the empty string. -/
theorem openai_absent_choices_throws :
    OpenAIClient.query { apiKey := "k" } (.ok "\x7b\x7d") =
      .error (.errObj "Cannot read properties of undefined (reading '0')") := rfl

/-- C7 (amended): for every successful hosted-adapter call whose response
body parses to a payload carrying an empty `choices` array, the adapter
returns the empty string rather than failing. -/
theorem openai_empty_choices_yields_empty_string (c : OpenAIClient) (bodyText : String)
    (data : Json) (hparse : jsonParseJS bodyText = .ok data)
    (hchoices : data.getProp "choices" = some (Json.arr [])) :
    OpenAIClient.query c (.ok bodyText) = .ok "" := by
  have hred : OpenAIClient.query c (.ok bodyText) =
      (match jsonParseJS bodyText with
       | .error m => .error (.errObj m)
       | .ok d => openaiExtractContent d) := rfl
  rw [hred, hparse]
  cases data with
  | null => exact absurd hchoices (by simp [Json.getProp])
  | bool b => exact absurd hchoices (by simp [Json.getProp])
  | num s => exact absurd hchoices (by simp [Json.getProp])
  | str s =>
      exact absurd hchoices
        (by simp [Json.getProp, show canonicalIndex? "choices" = none from rfl])
  | arr xs =>
      exact absurd hchoices
        (by simp [Json.getProp, show canonicalIndex? "choices" = none from rfl])
  | obj fs =>
      simp only [openaiExtractContent]
      rw [hchoices]
      rfl

/-- C7 witness: the theorem applied to the concrete empty-choices body. -/
theorem openai_empty_choices_witness :
    OpenAIClient.query { apiKey := "k" } (.ok "\x7b\"choices\":[]\x7d") = .ok "" :=
  openai_empty_choices_yields_empty_string { apiKey := "k" } "\x7b\"choices\":[]\x7d"
    (Json.obj [("choices", Json.arr [])]) rfl rfl

/-- C3 counterexample: the raw text `5` contains neither a fenced json block
nor a brace pair, yet extraction succeeds — the whole text is handed to the
JSON parser and parses as a number — instead of failing with a parse
error. -/
theorem parse_no_fence_no_brace_can_succeed :
    fenceFind ("5".toList) = none ∧ plainMatch ("5".toList) = none ∧
    parseNaturalLanguageQuery "q" "5" =
      .ok { natural_language_question := "q", service := none, operation := none,
            minDuration := none, maxDuration := none, tags := none,
            status := .str "all" } :=
  ⟨rfl, rfl, rfl⟩

/-- C3 (amended): extraction uses the fenced-block interior, else the greedy
brace span, else the whole raw text; the call succeeds exactly when the
selected text parses as non-null JSON, and every failure wraps the JSON
parser's own message (or the null-payload access error) after a fixed prefix
rather than an excerpt of the raw text. -/
theorem parse_extraction_policy_characterization (question content : String) :
    ((∃ r, parseNaturalLanguageQuery question content = .ok r) ↔
      (∃ j, jsonParseJS (extractJsonContent content) = .ok j ∧ j ≠ Json.null)) ∧
    (∀ t, parseNaturalLanguageQuery question content = .error t →
      ∃ m, t = .errObj (parseFailWrap ++ m) ∧
        (jsonParseJS (extractJsonContent content) = .error m ∨
          jsonParseJS (extractJsonContent content) = .ok Json.null)) := by
  have hchar : parseNaturalLanguageQuery question content =
      (match jsonParseJS (extractJsonContent content) with
        | .error m => .error (.errObj (parseFailWrap ++ m))
        | .ok .null => .error (.errObj (parseFailWrap ++
            "Cannot read properties of null (reading 'service')"))
        | .ok parsed => .ok (normalizeParsed question parsed)) := rfl
  rw [hchar]
  rcases h : jsonParseJS (extractJsonContent content) with m | j
  · constructor
    · simp
    · intro t ht
      refine ⟨m, ?_, Or.inl rfl⟩
      simp only [Except.error.injEq] at ht
      exact ht.symm
  · cases j with
    | null =>
        constructor
        · simp
        · intro t ht
          refine ⟨"Cannot read properties of null (reading 'service')", ?_, Or.inr rfl⟩
          simp only [Except.error.injEq] at ht
          exact ht.symm
    | bool b =>
        exact ⟨iff_of_true ⟨_, rfl⟩ ⟨_, rfl, fun hh => Json.noConfusion hh⟩,
          fun t ht => absurd ht (by simp)⟩
    | num s =>
        exact ⟨iff_of_true ⟨_, rfl⟩ ⟨_, rfl, fun hh => Json.noConfusion hh⟩,
          fun t ht => absurd ht (by simp)⟩
    | str s =>
        exact ⟨iff_of_true ⟨_, rfl⟩ ⟨_, rfl, fun hh => Json.noConfusion hh⟩,
          fun t ht => absurd ht (by simp)⟩
    | arr xs =>
        exact ⟨iff_of_true ⟨_, rfl⟩ ⟨_, rfl, fun hh => Json.noConfusion hh⟩,
          fun t ht => absurd ht (by simp)⟩
    | obj fs =>
        exact ⟨iff_of_true ⟨_, rfl⟩ ⟨_, rfl, fun hh => Json.noConfusion hh⟩,
          fun t ht => absurd ht (by simp)⟩
